import Mathlib

/-!
Verification development for the powertest tool (src/main.rs).

The source's control loop, its shutdown (kill-capability) handling and the
ELF test-count reader are shallowly embedded below.  Currents, summed by the
source in an f32 accumulator, are modelled as exact rationals; machine
integers that can never overflow in the source (loop counters) are modelled
as Nat.  A Rust panic (a failed unwrap) is modelled by a distinguished
result constructor, since it aborts the thread rather than returning.
-/

namespace Powertest

/-- One sample as delivered by the ppk2 crate: the measured current in
micro amps and the observed logic-port pin levels. -/
structure Measurement where
  micro_amps : ℚ
  pins : List Bool
deriving DecidableEq, Repr

/-- ppk2 MeasurementMatch: each received event is either a sample whose pin
state matched the requested pattern, or the marker that it did not match. -/
inductive MeasurementMatch where
  | Match : Measurement → MeasurementMatch
  | NoMatch : MeasurementMatch
deriving DecidableEq, Repr

/-- std::sync::mpsc::RecvTimeoutError, the error type of recv_timeout. -/
inductive RecvTimeoutError where
  | Timeout
  | Disconnected
deriving DecidableEq, Repr

/-- The result of one rx.recv_timeout call in the control loop (main.rs:132). -/
inductive RcvRes where
  | ok : MeasurementMatch → RcvRes
  | err : RecvTimeoutError → RcvRes
deriving DecidableEq, Repr

/-- The mutable state of the control loop in main (main.rs:121-127):
preamble_detected, sum, count and report_count. -/
structure St where
  preamble_detected : Bool
  sum : ℚ
  count : ℕ
  report_count : ℕ
deriving DecidableEq, Repr

/-- The initial loop state (main.rs:121-127). -/
def initSt : St := ⟨false, 0, 0, 0⟩

/-- The event-processing arms of the control loop's match (main.rs:138-167),
i.e. the WindowAggregator step: given the current state and one classified
event, the updated state and the emitted report value, if any.  The report
value is the average current of the finished window in micro amps; the
source logs this value divided by 1000 (mA) at main.rs:155-158. -/
def aggStep (s : St) (e : MeasurementMatch) : St × Option ℚ :=
  match e with
  | .Match m =>
    if s.preamble_detected then
      ({ s with count := s.count + 1, sum := s.sum + m.micro_amps }, none)
    else
      (s, none)
  | .NoMatch =>
    if 0 < s.count then
      ({ preamble_detected := true, sum := 0, count := 0,
         report_count := s.report_count + 1 },
       some (s.sum / (s.count : ℚ)))
    else
      ({ preamble_detected := true, sum := 0, count := 0,
         report_count := s.report_count }, none)

/-- The WindowAggregator run over a list of classified events: final state
and the list of emitted report values, in emission order. -/
def aggRun : St → List MeasurementMatch → St × List ℚ
  | s, [] => (s, [])
  | s, e :: rest =>
    let p := aggStep s e
    let r := aggRun p.1 rest
    (r.1, p.2.toList ++ r.2)

/-- Spec-side definition (spec section 8): the arithmetic mean of a window's
samples. -/
def winMean (w : List ℚ) : ℚ := w.sum / (w.length : ℚ)

/-- Spec-side definition (spec section 8), Ready phase: the completed
windows of an event suffix, where acc holds the samples of the currently
open run of Match events.  A run is a completed window only when a later
NoMatch terminates it; a trailing unterminated run yields nothing, and an
empty run between two NoMatch events yields nothing. -/
def windowsReady : List ℚ → List MeasurementMatch → List (List ℚ)
  | _, [] => []
  | acc, .Match m :: rest => windowsReady (acc ++ [m.micro_amps]) rest
  | acc, .NoMatch :: rest =>
    if acc.isEmpty then windowsReady [] rest else acc :: windowsReady [] rest

/-- Spec-side definition (spec section 8): the maximal contiguous runs of
Match events that occur after at least one NoMatch has been seen and are
terminated by a subsequent NoMatch.  Match events before the first NoMatch
belong to the preamble and open no window. -/
def completedWindows : List MeasurementMatch → List (List ℚ)
  | [] => []
  | .Match _ :: rest => completedWindows rest
  | .NoMatch :: rest => windowsReady [] rest

/-- Whether a classified event is a Match. -/
def isMatchEv : MeasurementMatch → Bool
  | .Match _ => true
  | .NoMatch => false

/-- How the control loop of main ended. stillRunning is a model artifact: the
supplied list of receive results was exhausted with the loop still going (the
real loop would block in recv_timeout).  brokeOk and brokeErr are the two
break paths that took the kill capability (the stop closure returned Ok or
Err); returnedErr is the catch-all receive-error arm whose break Err(e)?
returns the error from main (main.rs:173-176); panicked models an unwrap
failure aborting the thread. -/
inductive LoopEnd where
  | stillRunning
  | brokeOk
  | brokeErr
  | returnedErr : RecvTimeoutError → LoopEnd
  | panicked
deriving DecidableEq, Repr

/-- The break expression of the two loop break paths (main.rs:135 and
main.rs:170): kill.lock().unwrap().take().map(k invoked).unwrap().  killOk
records whether the stop closure itself returns Ok(ppk2).  Yields the slot
content afterwards, the number of times the stop action actually ran, and
the resulting loop end: when the slot is already empty, take() yields None,
map leaves None and unwrap panics without the stop action ever running. -/
def breakTakeKill (killOk : Bool) (slot : Option Unit) : Option Unit × ℕ × LoopEnd :=
  match slot with
  | some _ => (none, 1, if killOk then .brokeOk else .brokeErr)
  | none => (none, 0, .panicked)

/-- Everything a control-loop run produces: final aggregation state, kill
slot content, number of stop-action invocations, emitted report values,
number of receive results consumed, and how the loop ended. -/
structure LoopRes where
  st : St
  slot : Option Unit
  stopsInvoked : ℕ
  reports : List ℚ
  consumed : ℕ
  outcome : LoopEnd
deriving DecidableEq, Repr

/-- The control loop of main (main.rs:131-178) over a list of receive
results: each iteration first receives (consuming the head), then checks
report_count against the expected count and breaks by taking the kill when
the count is reached, and otherwise dispatches on the received value: Ok
events go through the aggregator arms, Err(Disconnected) breaks by taking
the kill, and any other receive error breaks out of main with that error,
leaving the kill slot untouched. -/
def mainLoopGo (expected : ℕ) (killOk : Bool) : St → Option Unit → List RcvRes → LoopRes
  | s, slot, [] => ⟨s, slot, 0, [], 0, .stillRunning⟩
  | s, slot, r :: rest =>
    if expected ≤ s.report_count then
      let t := breakTakeKill killOk slot
      ⟨s, t.1, t.2.1, [], 1, t.2.2⟩
    else
      match r with
      | .ok m =>
        let p := aggStep s m
        let res := mainLoopGo expected killOk p.1 slot rest
        ⟨res.st, res.slot, res.stopsInvoked, p.2.toList ++ res.reports,
          res.consumed + 1, res.outcome⟩
      | .err .Disconnected =>
        let t := breakTakeKill killOk slot
        ⟨s, t.1, t.2.1, [], 1, t.2.2⟩
      | .err e => ⟨s, slot, 0, [], 1, .returnedErr e⟩

/-- How the main function exits in this model: okExit is main returning
Ok(()), errExit is main returning the propagated receive error, panicked a
crash, stillRunning the model artifact of an exhausted input list. -/
inductive MainOutcome where
  | okExit
  | errExit : RecvTimeoutError → MainOutcome
  | panicked
  | stillRunning
deriving DecidableEq, Repr

/-- Result of a whole main run: the loop result, main's exit, and whether
the device power was set to Disabled after the loop (main.rs:179-182). -/
structure MainRes where
  loopRes : LoopRes
  outcome : MainOutcome
  powerDisabled : Bool
deriving DecidableEq, Repr

/-- The part of main from the loop onwards (main.rs:131-184): run the loop
from the initial state with the kill capability present in the slot;
afterwards, only when the loop broke with Ok(ppk2) is the device power set
to Disabled (main.rs:179-182); a loop that broke with the kill closure's
Err skips the power-off but main still returns Ok; a loop that did
break Err(e)? makes main return that error with no power-off at all. -/
def runMain (expected : ℕ) (killOk : Bool) (evs : List RcvRes) : MainRes :=
  let res := mainLoopGo expected killOk initSt (some ()) evs
  { loopRes := res
    outcome :=
      match res.outcome with
      | .brokeOk => .okExit
      | .brokeErr => .okExit
      | .returnedErr e => .errExit e
      | .panicked => .panicked
      | .stillRunning => .stillRunning
    powerDisabled :=
      match res.outcome with
      | .brokeOk => true
      | _ => false }

/-- What one take of the shared kill slot does to its caller. -/
inductive TakeOutcome where
  | stopped
  | panicked
deriving DecidableEq, Repr

/-- One take of the shared kill slot under its mutex, as performed by all
three call sites: the abort-signal handler (main.rs:112, take().unwrap())
and the two loop break paths (main.rs:135 and main.rs:170,
take().map(..).unwrap()).  A caller that finds the capability present
removes it and invokes the stop action; a caller that finds the slot empty
unwraps None and panics, never invoking the stop action. -/
def takeStop : Option Unit → Option Unit × TakeOutcome
  | some _ => (none, .stopped)
  | none => (none, .panicked)

/-- n serialized take attempts against the slot.  The mutex serializes every
interleaving of the control loop and the asynchronous abort handler into
such a sequence; returns the final slot content and how many of the attempts
actually invoked the stop action. -/
def runTakes : Option Unit → ℕ → Option Unit × ℕ
  | slot, 0 => (slot, 0)
  | slot, n + 1 =>
    let t := takeStop slot
    let r := runTakes t.1 n
    (r.1, (if t.2 = .stopped then 1 else 0) + r.2)

/-- One section of the modelled ELF file: its load address and raw bytes. -/
structure ElfSection where
  address : ℕ
  data : List ℕ
deriving DecidableEq, Repr

/-- One symbol of the modelled ELF file: name, index of its containing
section, address and size in bytes. -/
structure ElfSymbol where
  name : String
  section_index : ℕ
  address : ℕ
  size : ℕ
deriving DecidableEq, Repr

/-- The parts of an object::File that read_test_count consults: sections,
symbols, and the declared byte order and address width. -/
structure ElfFile where
  sections : List ElfSection
  symbols : List ElfSymbol
  is_little_endian : Bool
  is_64 : Bool
deriving DecidableEq, Repr

/-- How read_test_count can fail. notFound is the bail! for a missing
DEFMT_TEST_COUNT symbol (main.rs:199); sectionErr is a section_by_index
error propagated with the question-mark operator (main.rs:202); panicked
models a Rust panic from a failed unwrap (main.rs:205 on an out-of-range
data request, main.rs:209-212 on a byte-length mismatch): the process
aborts, no error value is returned to the caller. -/
inductive ReadErr where
  | notFound
  | sectionErr
  | panicked
deriving DecidableEq, Repr

/-- Result of the modelled read_test_count. -/
inductive ReadResult where
  | ok : ℕ → ReadResult
  | error : ReadErr → ReadResult
deriving DecidableEq, Repr

/-- object section.data_range(address, size): the size bytes starting at the
given absolute address, when that range lies inside the section's data;
None otherwise. -/
def dataRange (sec : ElfSection) (addr size : ℕ) : Option (List ℕ) :=
  if sec.address ≤ addr ∧ addr + size ≤ sec.address + sec.data.length then
    some ((sec.data.drop (addr - sec.address)).take size)
  else none

/-- Little-endian interpretation of a byte list as an unsigned integer
(uN::from_le_bytes). -/
def fromLeBytes : List ℕ → ℕ
  | [] => 0
  | b :: rest => b + 256 * fromLeBytes rest

/-- Big-endian interpretation of a byte list (uN::from_be_bytes). -/
def fromBeBytes (bs : List ℕ) : ℕ := fromLeBytes bs.reverse

/-- read_test_count (main.rs:191-216): find the symbol named exactly
DEFMT_TEST_COUNT (bailing with the not-found error otherwise), fetch its
containing section, read its backing bytes, and decode them according to
the file's declared byte order and address width.  try_into().unwrap()
demands exactly 4 bytes for a 32-bit file and exactly 8 for a 64-bit file
and panics on any other length, as does the unwrap on an out-of-range
data_range result. -/
def read_test_count (e : ElfFile) : ReadResult :=
  match e.symbols.find? (fun s => s.name == "DEFMT_TEST_COUNT") with
  | none => .error .notFound
  | some sym =>
    match e.sections[sym.section_index]? with
    | none => .error .sectionErr
    | some sec =>
      match dataRange sec sym.address sym.size with
      | none => .error .panicked
      | some data =>
        match e.is_little_endian, e.is_64 with
        | true, false =>
          if data.length = 4 then .ok (fromLeBytes data) else .error .panicked
        | false, false =>
          if data.length = 4 then .ok (fromBeBytes data) else .error .panicked
        | true, true =>
          if data.length = 8 then .ok (fromLeBytes data) else .error .panicked
        | false, true =>
          if data.length = 8 then .ok (fromBeBytes data) else .error .panicked

/-- A 32-bit little-endian file whose only symbol is the older name
__DEFMT_TEST_COUNT, with well-formed 4-byte data encoding 7. -/
def elfUnderscoreOnly : ElfFile :=
  { sections := [⟨0, [7, 0, 0, 0]⟩],
    symbols := [⟨"__DEFMT_TEST_COUNT", 0, 0, 4⟩],
    is_little_endian := true,
    is_64 := false }

/-- A 32-bit little-endian file with a well-formed DEFMT_TEST_COUNT symbol
encoding 7. -/
def elfWithCount : ElfFile :=
  { sections := [⟨0, [7, 0, 0, 0]⟩],
    symbols := [⟨"DEFMT_TEST_COUNT", 0, 0, 4⟩],
    is_little_endian := true,
    is_64 := false }

/-- A 32-bit little-endian file whose DEFMT_TEST_COUNT symbol is backed by
only 3 bytes: a length matching neither a 32-bit nor a 64-bit integer. -/
def elfShortData : ElfFile :=
  { sections := [⟨0, [1, 2, 3]⟩],
    symbols := [⟨"DEFMT_TEST_COUNT", 0, 0, 3⟩],
    is_little_endian := true,
    is_64 := false }

end Powertest

namespace Powertest

theorem aggRun_ready (evs : List MeasurementMatch) :
    ∀ (acc : List ℚ) (rc : ℕ),
      (aggRun ⟨true, acc.sum, acc.length, rc⟩ evs).2
        = (windowsReady acc evs).map winMean := by
  induction evs with
  | nil => intro acc rc; simp [aggRun, windowsReady]
  | cons e rest ih =>
    intro acc rc
    cases e with
    | Match m =>
      have h := ih (acc ++ [m.micro_amps]) rc
      simp only [List.sum_append, List.sum_cons, List.sum_nil, add_zero,
        List.length_append, List.length_cons, List.length_nil, Nat.zero_add] at h
      simpa [aggRun, aggStep, windowsReady] using h
    | NoMatch =>
      cases acc with
      | nil =>
        have h := ih [] rc
        simpa [aggRun, aggStep, windowsReady] using h
      | cons a as =>
        have h := ih [] (rc + 1)
        simp only [List.sum_nil, List.length_nil] at h
        simpa [aggRun, aggStep, windowsReady, winMean] using h

theorem aggRun_preamble (evs : List MeasurementMatch) :
    ∀ (q : ℚ) (rc : ℕ),
      (aggRun ⟨false, q, 0, rc⟩ evs).2 = (completedWindows evs).map winMean := by
  induction evs with
  | nil => intro q rc; simp [aggRun, completedWindows]
  | cons e rest ih =>
    intro q rc
    cases e with
    | Match m => simpa [aggRun, aggStep, completedWindows] using ih q rc
    | NoMatch =>
      have h := aggRun_ready rest [] rc
      simp only [List.sum_nil, List.length_nil] at h
      simpa [aggRun, aggStep, completedWindows] using h

/-- Claim C3: for every sequence of classified events, the WindowAggregator
emits exactly one report per maximal contiguous run of Match events that
occurs after at least one NoMatch has been seen and is terminated by a
subsequent NoMatch, and each report's value is the arithmetic mean of the
current_micro_amps values of the Match events of its run, in window order. -/
theorem aggregator_reports_windows (evs : List MeasurementMatch) :
    (aggRun initSt evs).2 = (completedWindows evs).map winMean := by
  simpa [initSt] using aggRun_preamble evs 0 0

theorem aggRun_skips_leading_matches (pre : List MeasurementMatch)
    (h : ∀ e ∈ pre, isMatchEv e = true) :
    ∀ evs, aggRun initSt (pre ++ evs) = aggRun initSt evs := by
  induction pre with
  | nil => intro evs; rfl
  | cons e pre2 ih =>
    intro evs
    cases e with
    | NoMatch => simp [isMatchEv] at h
    | Match m =>
      have h2 : ∀ e ∈ pre2, isMatchEv e = true := fun e he => h e (List.mem_cons_of_mem _ he)
      have step : aggStep initSt (.Match m) = (initSt, none) := by
        simp [aggStep, initSt]
      calc aggRun initSt ((MeasurementMatch.Match m :: pre2) ++ evs)
          = aggRun initSt (pre2 ++ evs) := by simp [aggRun, step]
        _ = aggRun initSt evs := ih h2 evs

/-- Claim C8: Match events that occur before the first NoMatch (the
Preamble phase) are never added to the running sum or count — processing
them leaves the loop state at its initial value — and never contribute to
or produce any report: the run over the whole sequence equals the run over
the remainder alone. -/
theorem preamble_matches_ignored (pre rest : List MeasurementMatch)
    (h : ∀ e ∈ pre, isMatchEv e = true) :
    (aggRun initSt pre).1 = initSt ∧
      aggRun initSt (pre ++ rest) = aggRun initSt rest := by
  constructor
  · have h2 := aggRun_skips_leading_matches pre h []
    rw [List.append_nil] at h2
    rw [h2]
    rfl
  · exact aggRun_skips_leading_matches pre h rest

/-- Claim C8 witness: two concrete Match events ahead of the first NoMatch
leave the state untouched and the run unchanged. -/
theorem preamble_matches_ignored_w :
    (aggRun initSt [.Match ⟨100, []⟩, .Match ⟨200, []⟩]).1 = initSt ∧
      aggRun initSt ([.Match ⟨100, []⟩, .Match ⟨200, []⟩] ++ [.NoMatch])
        = aggRun initSt [.NoMatch] :=
  preamble_matches_ignored [.Match ⟨100, []⟩, .Match ⟨200, []⟩] [.NoMatch]
    (by decide)

/-- Claim C9: a NoMatch event arriving while running_count is zero emits no
report and leaves report_count unchanged; it only marks the preamble as
detected and resets sum and count to zero. -/
theorem nomatch_zero_count_no_report (s : St) (h : s.count = 0) :
    aggStep s .NoMatch = (⟨true, 0, 0, s.report_count⟩, none) := by
  simp [aggStep, h]

/-- Claim C9 witness: a concrete state with count zero (a NoMatch directly
after another NoMatch) produces no report and keeps report_count at 2. -/
theorem nomatch_zero_count_no_report_w :
    aggStep ⟨true, 5, 0, 2⟩ .NoMatch = (⟨true, 0, 0, 2⟩, none) :=
  nomatch_zero_count_no_report ⟨true, 5, 0, 2⟩ rfl

theorem runTakes_none (n : ℕ) : (runTakes none n).2 = 0 := by
  induction n with
  | zero => rfl
  | succ k ih => simp [runTakes, takeStop, ih]

theorem mainLoopGo_stops_le_one (expected : ℕ) (killOk : Bool) :
    ∀ (evs : List RcvRes) (s : St) (slot : Option Unit),
      (mainLoopGo expected killOk s slot evs).stopsInvoked ≤ 1 := by
  intro evs
  induction evs with
  | nil => intro s slot; simp [mainLoopGo]
  | cons r rest ih =>
    intro s slot
    by_cases h : expected ≤ s.report_count
    · cases slot <;> simp [mainLoopGo, h, breakTakeKill]
    · cases r with
      | ok m => simpa [mainLoopGo, h] using ih (aggStep s m).1 slot
      | err e =>
        cases e with
        | Disconnected => cases slot <;> simp [mainLoopGo, h, breakTakeKill]
        | Timeout => simp [mainLoopGo, h]

/-- Claim C1 (amended): the stop action is invoked at most once.  Every
interleaving of the control loop and the abort handler is serialized by the
mutex into a sequence of take attempts; starting from a present capability
at most one attempt invokes the stop action, starting from an empty slot
none ever does (so no path invokes the stop after another has taken it),
and a whole modelled main run invokes the stop action at most once. -/
theorem stop_invoked_at_most_once (n expected : ℕ) (killOk : Bool)
    (evs : List RcvRes) :
    (runTakes (some ()) n).2 ≤ 1 ∧ (runTakes none n).2 = 0 ∧
      (runMain expected killOk evs).loopRes.stopsInvoked ≤ 1 := by
  refine ⟨?_, runTakes_none n, ?_⟩
  · cases n with
    | zero => simp [runTakes]
    | succ k => simp [runTakes, takeStop, runTakes_none]
  · exact mainLoopGo_stops_le_one expected killOk evs initSt (some ())

/-- Claim C1 counterexample: a complete process run in which the slot never
transitions from present to empty.  With expected count 1 and a single
receive result Err(Timeout), main returns the error immediately: the
capability is never taken and the stop action never runs, so the slot goes
from present to empty zero times, not exactly once. -/
theorem stop_slot_untaken_run :
    (runMain 1 true [.err .Timeout]).loopRes.slot = some () ∧
      (runMain 1 true [.err .Timeout]).loopRes.stopsInvoked = 0 ∧
      (runMain 1 true [.err .Timeout]).outcome = .errExit .Timeout :=
  ⟨rfl, rfl, rfl⟩

/-- Claim C2 (code evaluated at the failing input): a caller that finds the
kill slot already empty does not no-op benignly — it panics.  The shared
take operation panics on an empty slot; after a first successful take the
next take panics; and the loop's own break path (main.rs:135 and
main.rs:170) panics likewise when the slot is empty. -/
theorem empty_slot_take_panics :
    takeStop none = (none, .panicked) ∧
      (takeStop (takeStop (some ())).1).2 = .panicked ∧
      (takeStop (some ())).2 = .stopped ∧
      breakTakeKill true none = (none, 0, .panicked) :=
  ⟨rfl, rfl, rfl, rfl⟩

theorem mainLoopGo_reports_bound (expected : ℕ) (killOk : Bool) :
    ∀ (evs : List RcvRes) (s : St) (slot : Option Unit),
      s.report_count ≤ expected →
        (mainLoopGo expected killOk s slot evs).st.report_count ≤ expected ∧
          (mainLoopGo expected killOk s slot evs).reports.length + s.report_count
            = (mainLoopGo expected killOk s slot evs).st.report_count := by
  intro evs
  induction evs with
  | nil => intro s slot hs; simp [mainLoopGo, hs]
  | cons r rest ih =>
    intro s slot hs
    by_cases h : expected ≤ s.report_count
    · cases slot <;> simp [mainLoopGo, h, breakTakeKill, hs]
    · cases r with
      | ok m =>
        cases m with
        | Match mm =>
          have hrc : (aggStep s (.Match mm)).1.report_count = s.report_count := by
            by_cases hp : s.preamble_detected <;> simp [aggStep, hp]
          have h2 := ih (aggStep s (.Match mm)).1 slot (by rw [hrc]; exact hs)
          have hempty : (aggStep s (.Match mm)).2 = none := by
            by_cases hp : s.preamble_detected <;> simp [aggStep, hp]
          rw [hrc] at h2
          simp only [mainLoopGo, h, if_neg h, hempty]
          simpa [hempty] using h2
        | NoMatch =>
          by_cases hc : 0 < s.count
          · have hrc : (aggStep s .NoMatch).1.report_count = s.report_count + 1 := by
              simp [aggStep, hc]
            have hone : (aggStep s .NoMatch).2 = some (s.sum / (s.count : ℚ)) := by
              simp [aggStep, hc]
            have h2 := ih (aggStep s .NoMatch).1 slot
              (by rw [hrc]; omega)
            rw [hrc] at h2
            simp only [mainLoopGo, if_neg h, hone]
            refine ⟨h2.1, ?_⟩
            simp only [Option.toList_some, List.length_append, List.length_cons,
              List.length_nil]
            omega
          · have hrc : (aggStep s .NoMatch).1.report_count = s.report_count := by
              simp [aggStep, hc]
            have hempty : (aggStep s .NoMatch).2 = none := by
              simp [aggStep, hc]
            have h2 := ih (aggStep s .NoMatch).1 slot (by rw [hrc]; exact hs)
            rw [hrc] at h2
            simp only [mainLoopGo, if_neg h, hempty]
            simpa [hempty] using h2
      | err e =>
        cases e with
        | Disconnected => cases slot <;> simp [mainLoopGo, h, breakTakeKill, hs]
        | Timeout => simp [mainLoopGo, h, hs]

/-- Claim C4 (amended): the number of reports a run emits never exceeds the
expected count; and once report_count has reached the expected count the
loop emits nothing further, but — because each iteration receives before
checking — it consumes exactly one more receive result, discards it, and
only then halts by taking the kill. -/
theorem reports_never_exceed_expected (expected : ℕ) (killOk : Bool)
    (evs : List RcvRes) (s : St) (slot : Option Unit) (r : RcvRes)
    (rest : List RcvRes) :
    (mainLoopGo expected killOk initSt (some ()) evs).reports.length ≤ expected ∧
      (expected ≤ s.report_count →
        mainLoopGo expected killOk s slot (r :: rest)
          = ⟨s, (breakTakeKill killOk slot).1, (breakTakeKill killOk slot).2.1,
              [], 1, (breakTakeKill killOk slot).2.2⟩) := by
  constructor
  · have h := mainLoopGo_reports_bound expected killOk evs initSt (some ())
      (by simp [initSt])
    have h1 := h.1
    have h2 := h.2
    simp [initSt] at h2
    omega
  · intro h
    simp [mainLoopGo, h]

/-- Claim C4 witness: with expected count 0 nothing is ever emitted, and
from a state that has reached the expected count the loop consumes exactly
the one next receive result and halts. -/
theorem reports_never_exceed_expected_w :
    (mainLoopGo 0 true initSt (some ()) []).reports.length ≤ 0 ∧
      mainLoopGo 0 true initSt (some ()) [.ok .NoMatch]
        = ⟨initSt, none, 1, [], 1, .brokeOk⟩ :=
  ⟨(reports_never_exceed_expected 0 true [] initSt (some ()) (.ok .NoMatch) []).1,
    (reports_never_exceed_expected 0 true [] initSt (some ()) (.ok .NoMatch) []).2
      (Nat.zero_le _)⟩

/-- Claim C4 counterexample: the loop does consume events it does not need.
With expected count 0 it needs no events at all, yet it does not halt
before a receive completes (with no receive result it is still running) and
when an event does arrive it consumes and discards it before halting. -/
theorem loop_extra_receive_after_done :
    (mainLoopGo 0 true initSt (some ()) [.ok (.Match ⟨5, []⟩)]).consumed = 1 ∧
      (mainLoopGo 0 true initSt (some ()) []).outcome = .stillRunning :=
  ⟨rfl, rfl⟩

/-- Claim C5 (amended): a receive timeout is benign only when the expected
count has already been reached — then the loop breaks successfully by
taking the kill.  A timeout while report_count is still below the expected
count is treated as an error: the loop neither continues nor waits; it
terminates at once and main returns the error, with the kill slot left
untouched. -/
theorem timeout_rechecks_or_errors (expected : ℕ) (killOk : Bool) (s : St)
    (slot : Option Unit) (rest : List RcvRes) :
    (expected ≤ s.report_count →
      mainLoopGo expected killOk s (some ()) (.err .Timeout :: rest)
        = ⟨s, none, 1, [], 1, if killOk then .brokeOk else .brokeErr⟩) ∧
      (s.report_count < expected →
        mainLoopGo expected killOk s slot (.err .Timeout :: rest)
          = ⟨s, slot, 0, [], 1, .returnedErr .Timeout⟩) := by
  constructor
  · intro h
    simp [mainLoopGo, h, breakTakeKill]
  · intro h
    simp [mainLoopGo, Nat.not_le.mpr h]

/-- Claim C5 witness: with expected count 0 a timeout lets the loop break
successfully; with expected count 1 and no report yet the same timeout makes
the loop end with the propagated error. -/
theorem timeout_rechecks_or_errors_w :
    mainLoopGo 0 true initSt (some ()) [.err .Timeout]
        = ⟨initSt, none, 1, [], 1, .brokeOk⟩ ∧
      mainLoopGo 1 true initSt (some ()) [.err .Timeout]
        = ⟨initSt, some (), 0, [], 1, .returnedErr .Timeout⟩ :=
  ⟨(timeout_rechecks_or_errors 0 true initSt (some ()) []).1 (Nat.zero_le _),
    (timeout_rechecks_or_errors 1 true initSt (some ()) []).2 (by decide)⟩

/-- Claim C5 counterexample: a receive timeout while report_count is below
the expected count does not keep the loop waiting — the run terminates and
main returns the error (expected count 1, single result Err(Timeout)). -/
theorem timeout_terminates_with_error :
    (runMain 1 true [.err .Timeout]).outcome = .errExit .Timeout ∧
      (runMain 1 true [.err .Timeout]).loopRes.outcome ≠ .stillRunning :=
  ⟨rfl, by decide⟩

theorem mainLoopGo_returnedErr_slot (expected : ℕ) (killOk : Bool) :
    ∀ (evs : List RcvRes) (s : St) (slot : Option Unit) (e : RecvTimeoutError),
      (mainLoopGo expected killOk s slot evs).outcome = .returnedErr e →
        (mainLoopGo expected killOk s slot evs).slot = slot ∧
          (mainLoopGo expected killOk s slot evs).stopsInvoked = 0 := by
  intro evs
  induction evs with
  | nil => intro s slot e h; simp [mainLoopGo] at h
  | cons r rest ih =>
    intro s slot e h
    by_cases hc : expected ≤ s.report_count
    · cases slot with
      | none => simp [mainLoopGo, hc, breakTakeKill] at h
      | some u =>
        simp [mainLoopGo, hc, breakTakeKill] at h
        cases killOk <;> simp_all
    · cases r with
      | ok m =>
        have h2 : (mainLoopGo expected killOk (aggStep s m).1 slot rest).outcome
            = .returnedErr e := by
          simpa [mainLoopGo, hc] using h
        simpa [mainLoopGo, hc] using ih (aggStep s m).1 slot e h2
      | err e2 =>
        cases e2 with
        | Disconnected =>
          cases slot with
          | none => simp [mainLoopGo, hc, breakTakeKill] at h
          | some u =>
            simp [mainLoopGo, hc, breakTakeKill] at h
            cases killOk <;> simp_all
        | Timeout => simp [mainLoopGo, hc]

/-- Claim C10: a receive error other than Disconnected (the timeout) while
the expected count is unreached makes the loop end immediately with that
error, emitting nothing, leaving the kill slot untouched and never running
the stop action; and any main run whose loop ended that way returns the
error with the capability still present, the stop action never invoked and
the device power never set to Disabled. -/
theorem recv_error_returns_without_shutdown (expected : ℕ) (killOk : Bool)
    (s : St) (slot : Option Unit) (rest evs : List RcvRes)
    (h : s.report_count < expected) :
    mainLoopGo expected killOk s slot (.err .Timeout :: rest)
        = ⟨s, slot, 0, [], 1, .returnedErr .Timeout⟩ ∧
      ∀ e, (runMain expected killOk evs).loopRes.outcome = .returnedErr e →
        (runMain expected killOk evs).outcome = .errExit e ∧
          (runMain expected killOk evs).powerDisabled = false ∧
          (runMain expected killOk evs).loopRes.slot = some () ∧
          (runMain expected killOk evs).loopRes.stopsInvoked = 0 := by
  constructor
  · simp [mainLoopGo, Nat.not_le.mpr h]
  · intro e he
    have hs := mainLoopGo_returnedErr_slot expected killOk evs initSt (some ()) e
    simp only [runMain] at he ⊢
    refine ⟨by rw [he], by rw [he], ?_, ?_⟩
    · exact (hs he).1
    · exact (hs he).2

/-- Claim C10 witness: expected count 1 with a single timeout receive — the
loop ends with the error, and main returns it with the slot still full, no
stop invocation and the power never disabled. -/
theorem recv_error_returns_without_shutdown_w :
    mainLoopGo 1 true initSt (some ()) [.err .Timeout]
        = ⟨initSt, some (), 0, [], 1, .returnedErr .Timeout⟩ ∧
      (runMain 1 true [.err .Timeout]).outcome = .errExit .Timeout ∧
        (runMain 1 true [.err .Timeout]).powerDisabled = false ∧
        (runMain 1 true [.err .Timeout]).loopRes.slot = some () ∧
        (runMain 1 true [.err .Timeout]).loopRes.stopsInvoked = 0 :=
  ⟨((recv_error_returns_without_shutdown 1 true initSt (some ()) []
      [.err .Timeout] (by decide)).1).symm ▸
      ((recv_error_returns_without_shutdown 1 true initSt (some ()) []
        [.err .Timeout] (by decide)).1),
    (recv_error_returns_without_shutdown 1 true initSt (some ()) []
      [.err .Timeout] (by decide)).2 .Timeout rfl⟩

/-- Claim C6 (amended): the resolver accepts only the exact symbol name
DEFMT_TEST_COUNT.  Any file without a symbol of that exact name — including
one that carries the older name __DEFMT_TEST_COUNT — yields the not-found
failure, while a file with the exact name and well-formed data resolves. -/
theorem test_count_symbol_exact_name (e : ElfFile)
    (h : e.symbols.find? (fun s => s.name == "DEFMT_TEST_COUNT") = none) :
    read_test_count e = .error .notFound ∧
      read_test_count elfUnderscoreOnly = .error .notFound ∧
      read_test_count elfWithCount = .ok 7 := by
  refine ⟨?_, rfl, rfl⟩
  simp [read_test_count, h]

/-- Claim C6 witness: the file holding only __DEFMT_TEST_COUNT contains no
symbol named exactly DEFMT_TEST_COUNT and is rejected as not found. -/
theorem test_count_symbol_exact_name_w :
    read_test_count elfUnderscoreOnly = .error .notFound ∧
      read_test_count elfUnderscoreOnly = .error .notFound ∧
      read_test_count elfWithCount = .ok 7 :=
  test_count_symbol_exact_name elfUnderscoreOnly (by decide)

/-- Claim C6 counterexample: a binary whose only symbol is the older name
__DEFMT_TEST_COUNT, with well-formed 4-byte data, is not accepted: the code
matches only the exact name DEFMT_TEST_COUNT (main.rs:197) and yields the
not-found failure, though the claim says only a binary containing neither
name may do so. -/
theorem underscore_symbol_rejected :
    read_test_count elfUnderscoreOnly = .error .notFound := rfl

/-- Claim C7 (amended): a file without the symbol fails with the not-found
error, which is distinct from every other outcome; when the symbol is
present and its backing byte length differs from the file's declared
address width (4 bytes for 32-bit, 8 for 64-bit — so in particular when it
matches neither width) the process panics on the failed conversion instead
of returning a malformed-data error; and on a matching length the bytes are
decoded with the file's own declared byte order. -/
theorem read_test_count_failure_modes (e : ElfFile) (sym : ElfSymbol)
    (sec : ElfSection) (data : List ℕ)
    (hfind : e.symbols.find? (fun s => s.name == "DEFMT_TEST_COUNT") = some sym)
    (hsec : e.sections[sym.section_index]? = some sec)
    (hdata : dataRange sec sym.address sym.size = some data) :
    (∀ e2 : ElfFile,
        e2.symbols.find? (fun s => s.name == "DEFMT_TEST_COUNT") = none →
          read_test_count e2 = .error .notFound) ∧
      (data.length ≠ (if e.is_64 then 8 else 4) →
        read_test_count e = .error .panicked) ∧
      (data.length = (if e.is_64 then 8 else 4) →
        read_test_count e
          = .ok (if e.is_little_endian then fromLeBytes data
                 else fromBeBytes data)) ∧
      ReadErr.notFound ≠ ReadErr.panicked := by
  refine ⟨?_, ?_, ?_, by decide⟩
  · intro e2 h2
    simp [read_test_count, h2]
  · intro hlen
    cases h64 : e.is_64 <;> rw [h64] at hlen <;> simp at hlen <;>
      cases hle : e.is_little_endian <;>
        simp [read_test_count, hfind, hsec, hdata, h64, hle, hlen]
  · intro hlen
    cases h64 : e.is_64 <;> rw [h64] at hlen <;> simp at hlen <;>
      cases hle : e.is_little_endian <;>
        simp [read_test_count, hfind, hsec, hdata, h64, hle, hlen]

/-- Claim C7 witness: the file whose DEFMT_TEST_COUNT symbol is backed by 3
bytes — a length matching neither width — makes the reader panic. -/
theorem read_test_count_failure_modes_w :
    read_test_count elfShortData = .error .panicked :=
  (read_test_count_failure_modes elfShortData ⟨"DEFMT_TEST_COUNT", 0, 0, 3⟩
      ⟨0, [1, 2, 3]⟩ [1, 2, 3] (by decide) (by decide) (by decide)).2.1
    (by decide)

/-- Claim C7 counterexample: with the symbol present but backed by 3 bytes
(neither 32-bit nor 64-bit) the code does not return a malformed-data error
result: it unwraps the failed slice conversion (main.rs:209) and the
process panics — ReadErr.panicked models that crash, and it is the only
non-not-found failure the length mismatch can produce. -/
theorem length_mismatch_is_crash :
    read_test_count elfShortData = .error .panicked ∧
      ReadErr.panicked ≠ ReadErr.notFound :=
  ⟨rfl, by decide⟩

end Powertest
